import Mathlib

/-
Verification of the Exchange Online dynamic-distribution-group runbook
(ddlcreate_new_exchange_online_runbook_enhanced.ps1).

The embedding models department strings as `List Char`; .NET substring /
trim / regex matching are given executable definitions faithful to the
source, and the per-department reconciliation loop body is modelled as a
pure function over an environment of remote-operation behaviours.
-/

namespace DDG

/-- Whitespace class: embedding of the ASCII range of .NET whitespace as used
by the regex class `\s` and by `String.Trim` / `IsNullOrWhiteSpace`. -/
def wsChar (c : Char) : Bool :=
  c = ' ' || c = '\t' || c = '\n' || c = '\r' || c = '\x0b' || c = '\x0c'

/-- Character class `[0-9]`. -/
def digitChar (c : Char) : Bool := '0' ≤ c && c ≤ '9'

/-- Character class `[A-Z]`. -/
def upperChar (c : Char) : Bool := 'A' ≤ c && c ≤ 'Z'

/-- Matches the regex `[A-Z]{3}` against the whole remaining input
(anchored at the end). -/
def matchUpper3 : List Char → Bool
  | [a, b, c] => upperChar a && upperChar b && upperChar c
  | _ => false

/-- Matches the regex `[0-9]{5}` against the whole input, as used by the
parser check `$deptNum -notmatch '^[0-9]{5}$'` on the extracted 5 chars. -/
def matchDigits5 : List Char → Bool
  | [a, b, c, d, e] => digitChar a && digitChar b && digitChar c && digitChar d && digitChar e
  | _ => false

/-- Matches `\s+[A-Z]{3}$`: one whitespace char, then either the final
three uppercase letters or more whitespace. -/
def matchWsUpper3 : List Char → Bool
  | [] => false
  | c :: rest => wsChar c && (matchUpper3 rest || matchWsUpper3 rest)

/-- Matches `-\s+[A-Z]{3}$`. -/
def matchDashWsUpper3 : List Char → Bool
  | [] => false
  | c :: rest => c = '-' && matchWsUpper3 rest

/-- Matches `\s+-\s+[A-Z]{3}$`. -/
def matchWsDash : List Char → Bool
  | [] => false
  | c :: rest => wsChar c && (matchDashWsUpper3 rest || matchWsDash rest)

/-- Matches `.+\s+-\s+[A-Z]{3}$` (`.` is any character except newline). -/
def matchDotPlus : List Char → Bool
  | [] => false
  | c :: rest => c ≠ '\n' && (matchWsDash rest || matchDotPlus rest)

/-- Matches `\s+.+\s+-\s+[A-Z]{3}$`. -/
def matchWsDotPlus : List Char → Bool
  | [] => false
  | c :: rest => wsChar c && (matchDotPlus rest || matchWsDotPlus rest)

/-- Embedding of the anchored regex test
`$DepartmentName -match '^[0-9]{5}\s+.+\s+-\s+[A-Z]{3}$'`. -/
def matchesDeptPattern : List Char → Bool
  | d1 :: d2 :: d3 :: d4 :: d5 :: rest =>
    digitChar d1 && digitChar d2 && digitChar d3 && digitChar d4 && digitChar d5 &&
      matchWsDotPlus rest
  | _ => false

/-- Result record of `Test-DepartmentFormat` (`@{IsValid; Error}`). -/
structure FormatValidation where
  isValid : Bool
  error : Option String
deriving Repr, DecidableEq

/-- Embedding of `Test-DepartmentFormat`: rejects strings shorter than 13
characters, then strings failing the anchored pattern. -/
def testDepartmentFormat (DepartmentName : List Char) : FormatValidation :=
  if DepartmentName.length < 13 then
    ⟨false, some "Department name too short (minimum 13 characters required)"⟩
  else if !(matchesDeptPattern DepartmentName) then
    ⟨false, some "Invalid format. Expected: 12345 Department Name - USA"⟩
  else
    ⟨true, none⟩

/-- Embedding of .NET `String.Substring(startIndex, length)`: throws
(modelled as `Except.error`) when the range is out of bounds. -/
def substring (s : List Char) (start len : Int) : Except String (List Char) :=
  if start < 0 || len < 0 || (s.length : Int) < start + len then
    .error "Index and length must refer to a location within the string"
  else
    .ok ((s.drop start.toNat).take len.toNat)

/-- Embedding of .NET `String.Trim()` restricted to the whitespace class. -/
def trimWs (s : List Char) : List Char :=
  ((s.dropWhile wsChar).reverse.dropWhile wsChar).reverse

/-- Embedding of `[string]::IsNullOrWhiteSpace`. -/
def isNullOrWhiteSpace (s : List Char) : Bool := s.all wsChar

/-- Successful result of `Get-DepartmentComponents` (`Number`, `Name`,
`CountryCode` of the returned hashtable). -/
structure DeptComponents where
  number : List Char
  name : List Char
  countryCode : List Char
deriving Repr, DecidableEq

/-- Embedding of `Get-DepartmentComponents`. The source computes
`$startPos = 6`, `$endPos = $DepartmentName.Length - 7`,
`$nameLength = $endPos - $startPos`; a thrown error is modelled as
`Except.error` of the message, matching the catch block that returns
`Success = $false` with the exception message. -/
def getDepartmentComponents (DepartmentName : List Char) : Except String DeptComponents :=
  match substring DepartmentName 0 5 with
  | .error e => .error e
  | .ok deptNum =>
    if !(matchDigits5 deptNum) then
      .error "Invalid department number: must be exactly 5 digits"
    else
      match substring DepartmentName ((DepartmentName.length : Int) - 3) 3 with
      | .error e => .error e
      | .ok countryCode =>
        if !(matchUpper3 countryCode) then
          .error "Invalid country code: must be exactly 3 uppercase letters"
        else
          if ((DepartmentName.length : Int) - 7) - 6 ≤ 0 then
            .error "Empty department name detected"
          else
            match substring DepartmentName 6 (((DepartmentName.length : Int) - 7) - 6) with
            | .error e => .error e
            | .ok raw =>
              let deptName := trimWs raw
              if isNullOrWhiteSpace deptName then
                .error "Department name is empty after parsing"
              else
                .ok ⟨deptNum, deptName, countryCode⟩

/-- Group name derivation `$groupName = $components.Number + $components.CountryCode`. -/
def groupNameOf (c : DeptComponents) : List Char := c.number ++ c.countryCode

/-- Display name derivation
`$displayName = $components.Name + ' - ' + $components.CountryCode`. -/
def displayNameOf (c : DeptComponents) : List Char :=
  c.name ++ (" - ").toList ++ c.countryCode

/-- Result record returned by `Invoke-ExchangeOperation`
(`@{Success; Result; Error}`). -/
structure OpResult (T : Type) where
  success : Bool
  result : Option T
  error : Option String
deriving Repr, DecidableEq

/-- Execution trace of one `Invoke-ExchangeOperation` call: the returned
record, the attempt numbers at which the operation block was invoked, and
the durations passed to `Start-Sleep` between attempts, in order. -/
structure RetryTrace (T : Type) where
  result : OpResult T
  attemptsMade : List Nat
  sleeps : List Nat
deriving Repr, DecidableEq

/-- Body of the retry loop of `Invoke-ExchangeOperation`, starting at
`attempt` with `rem` further iterations available after the current one
(so `rem = MaxRetries - attempt`). On a caught failure with `attempt`
equal to `MaxRetries` the failure record is returned; otherwise the
source executes `$attempt++` and then `Start-Sleep -Seconds (2 * $attempt)`,
hence the recorded sleep of `2 * (attempt + 1)`. -/
def retryFrom (op : Nat → Except String T) (attempt : Nat) : Nat → RetryTrace T
  | 0 =>
    match op attempt with
    | .ok r => ⟨⟨true, some r, none⟩, [attempt], []⟩
    | .error e => ⟨⟨false, none, some e⟩, [attempt], []⟩
  | rem + 1 =>
    match op attempt with
    | .ok r => ⟨⟨true, some r, none⟩, [attempt], []⟩
    | .error _ =>
      let t := retryFrom op (attempt + 1) rem
      ⟨t.result, attempt :: t.attemptsMade, 2 * (attempt + 1) :: t.sleeps⟩

/-- Embedding of `Invoke-ExchangeOperation`: `while ($attempt -le $MaxRetries)`
starting from `$attempt = 1`. When `MaxRetries ≤ 0` the loop body never
runs and the function falls off the end returning nothing (`none`); the
operation block is modelled as a function of the attempt number. -/
def invokeExchangeOperation (op : Nat → Except String T) (MaxRetries : Int) :
    Option (RetryTrace T) :=
  if MaxRetries ≤ 0 then none
  else some (retryFrom op 1 (MaxRetries.toNat - 1))

/-- Reading of `$result.Result` on the (possibly null) record returned by
`Invoke-ExchangeOperation`, for an operation whose own result is nullable
(`Get-Recipient`/`Get-DynamicDistributionGroup` with SilentlyContinue):
a null record, a failure record and a successful-but-empty lookup all
read back as null. -/
def traceResult (r : Option (RetryTrace (Option T))) : Option T :=
  match r with
  | some t =>
    match t.result.result with
    | some v => v
    | none => none
  | none => none

/-- Reading of `$result.Success` on the possibly-null record (null reads
back as falsy). -/
def traceSuccess (r : Option (RetryTrace T)) : Bool :=
  match r with
  | some t => t.result.success
  | none => false

/-- Reading of `$result.Error` on the possibly-null record. -/
def traceError (r : Option (RetryTrace T)) : Option String :=
  match r with
  | some t => t.result.error
  | none => none

/-- Directory object returned by the existence lookup; only its
`RecipientTypeDetails` field is consulted by the engine. -/
structure RecipientInfo where
  recipientTypeDetails : List Char
deriving Repr, DecidableEq

/-- Remote-operation behaviours for one department: for each of the four
Exchange calls the engine can issue, the outcome of the operation block as
a function of the attempt number. -/
structure DeptEnv where
  lookupAnyOp : Nat → Except String (Option RecipientInfo)
  lookupDDGOp : Nat → Except String (Option RecipientInfo)
  updateOp : Nat → Except String Unit
  createOp : Nat → Except String Unit

/-- Status strings recorded per department in `$processedDepartments`. -/
inductive DeptStatus
  | validationError
  | parsingError
  | created
  | createError
  | updated
  | updateError
  | skipped
  | unexpectedError
deriving Repr, DecidableEq

/-- Entry of `$processedDepartments`. -/
structure ProcessedEntry where
  department : List Char
  status : DeptStatus
  error : Option String := none
  groupName : Option (List Char) := none
  displayName : Option (List Char) := none
  reason : Option (List Char) := none
deriving Repr, DecidableEq

/-- The `$stats` counter hashtable. -/
structure Stats where
  created : Nat := 0
  updated : Nat := 0
  skipped : Nat := 0
  validationErrors : Nat := 0
  processingErrors : Nat := 0
  totalProcessed : Nat := 0
deriving Repr, DecidableEq

/-- Kinds of `Invoke-ExchangeOperation` calls the loop body can issue. The
source contains no remove or force-overwrite call of any kind. -/
inductive RemoteCall
  | checkExistingRecipient
  | checkExistingDDG
  | createDDG
  | updateDDG
deriving Repr, DecidableEq

/-- Embedding of one iteration of the `foreach ($dept in $depts)` loop
(per-department state machine): counter update, format validation, parse,
artifact derivation, the WhatIf gate (`continue`, recording nothing), the
existence lookup (read through `.Result`, so a lookup failure reads as
null), the DDG-typed lookup, and the create/update/skip decision. Returns
the updated counters, the entry appended to `$processedDepartments` (if
any), and the remote calls issued. In the embedding no modelled statement
throws outside `Invoke-ExchangeOperation`, so the outer catch branch
(`UnexpectedError`) is unreachable. -/
def processDepartment (whatIf : Bool) (MaxRetries : Int) (env : DeptEnv)
    (deptname : List Char) (stats : Stats) :
    Stats × Option ProcessedEntry × List RemoteCall :=
  let stats := { stats with totalProcessed := stats.totalProcessed + 1 }
  let formatValidation := testDepartmentFormat deptname
  if formatValidation.isValid = false then
    ({ stats with validationErrors := stats.validationErrors + 1 },
     some { department := deptname, status := .validationError,
            error := formatValidation.error }, [])
  else
    match getDepartmentComponents deptname with
    | .error e =>
      ({ stats with validationErrors := stats.validationErrors + 1 },
       some { department := deptname, status := .parsingError, error := some e }, [])
    | .ok components =>
      let groupName := groupNameOf components
      let displayName := displayNameOf components
      if whatIf then
        (stats, none, [])
      else
        let existingRecipientResult := invokeExchangeOperation env.lookupAnyOp 2
        let existingRecipient := traceResult existingRecipientResult
        match existingRecipient with
        | some existing =>
          let existingDDGResult := invokeExchangeOperation env.lookupDDGOp 2
          let existingDDG := traceResult existingDDGResult
          match existingDDG with
          | some _ =>
            let updateResult := invokeExchangeOperation env.updateOp MaxRetries
            if traceSuccess updateResult then
              ({ stats with updated := stats.updated + 1 },
               some { department := deptname, status := .updated,
                      groupName := some groupName, displayName := some displayName },
               [.checkExistingRecipient, .checkExistingDDG, .updateDDG])
            else
              ({ stats with processingErrors := stats.processingErrors + 1 },
               some { department := deptname, status := .updateError,
                      error := traceError updateResult },
               [.checkExistingRecipient, .checkExistingDDG, .updateDDG])
          | none =>
            ({ stats with skipped := stats.skipped + 1 },
             some { department := deptname, status := .skipped,
                    reason := some (("Exists as ").toList ++ existing.recipientTypeDetails) },
             [.checkExistingRecipient, .checkExistingDDG])
        | none =>
          let createResult := invokeExchangeOperation env.createOp MaxRetries
          if traceSuccess createResult then
            ({ stats with created := stats.created + 1 },
             some { department := deptname, status := .created,
                    groupName := some groupName, displayName := some displayName },
             [.checkExistingRecipient, .createDDG])
          else
            ({ stats with processingErrors := stats.processingErrors + 1 },
             some { department := deptname, status := .createError,
                    error := traceError createResult },
             [.checkExistingRecipient, .createDDG])

/-- Sequential fold of the reconciliation loop over a department list,
each department paired with its remote-operation behaviours. -/
def runEngine (whatIf : Bool) (MaxRetries : Int) :
    List (DeptEnv × List Char) → Stats → Stats
  | [], stats => stats
  | (env, d) :: rest, stats =>
    runEngine whatIf MaxRetries rest (processDepartment whatIf MaxRetries env d stats).1

/-- Round-half-to-even on rationals, the default midpoint mode of .NET
`[math]::Round`. -/
def roundHalfEven (q : ℚ) : ℤ :=
  let f : ℤ := ⌊q⌋
  if q - f < 1 / 2 then f
  else if 1 / 2 < q - f then f + 1
  else if f % 2 = 0 then f else f + 1

/-- Embedding of `[math]::Round(x, 2)`. -/
def mathRound2 (q : ℚ) : ℚ := (roundHalfEven (q * 100) : ℚ) / 100

/-- Quantities computed by the summary-report block. -/
structure SummaryReport where
  successCount : Nat
  totalErrors : Nat
  successRate : ℚ
  errorRate : ℚ
deriving Repr, DecidableEq

/-- Embedding of the summary-report computation: `$successCount`,
`$totalErrors`, `$successRate`, `$errorRate`, with the zero-denominator
guard `if ($stats.TotalProcessed -gt 0) { ... } else { 0 }`. -/
def summaryReport (stats : Stats) : SummaryReport :=
  let successCount := stats.created + stats.updated
  let totalErrors := stats.validationErrors + stats.processingErrors
  let successRate : ℚ :=
    if 0 < stats.totalProcessed then
      mathRound2 ((successCount : ℚ) / (stats.totalProcessed : ℚ) * 100)
    else 0
  let errorRate : ℚ :=
    if 0 < stats.totalProcessed then
      mathRound2 ((totalErrors : ℚ) / (stats.totalProcessed : ℚ) * 100)
    else 0
  ⟨successCount, totalErrors, successRate, errorRate⟩

/-- Fresh counters, as initialised before the loop. -/
def stats0 : Stats := {}

/-- Concrete operation that fails on every attempt. -/
def alwaysFailOp : Nat → Except String Unit := fun _ => .error "boom"

/-- Concrete operation that fails on attempt 1 and succeeds from attempt 2. -/
def flakyOp : Nat → Except String Unit := fun n =>
  if n ≤ 1 then .error "transient" else .ok ()

/-- Environment in which the existence lookup fails remotely on every
attempt and all other operations succeed. -/
def lookupFailEnv : DeptEnv where
  lookupAnyOp := fun _ => .error "timeout"
  lookupDDGOp := fun _ => .ok none
  updateOp := fun _ => .ok ()
  createOp := fun _ => .ok ()

/-- Environment in which no recipient bears the group name and all
operations succeed. -/
def benignEnv : DeptEnv where
  lookupAnyOp := fun _ => .ok none
  lookupDDGOp := fun _ => .ok none
  updateOp := fun _ => .ok ()
  createOp := fun _ => .ok ()

/-- Environment in which the group name is occupied by a shared mailbox
(a recipient that is not a dynamic distribution group). -/
def occupiedEnv : DeptEnv where
  lookupAnyOp := fun _ => .ok (some ⟨("SharedMailbox").toList⟩)
  lookupDDGOp := fun _ => .ok none
  updateOp := fun _ => .ok ()
  createOp := fun _ => .ok ()

/-- The specification scenario input. -/
def samplePayableInput : List Char := ("10023 Accounts Payable - USA").toList

/-- The skip-scenario department string. -/
def sampleFinanceDept : List Char := ("12345 Finance - USA").toList

/-- A minimum-length (13-character) department string that passes the
format validator. -/
def sampleShortDept : List Char := ("12345 X - ABC").toList

/-- The retry loop always invokes the operation at least once. -/
theorem retryFrom_attemptsMade_ne_nil (op : Nat → Except String T) :
    ∀ (rem a : Nat), (retryFrom op a rem).attemptsMade ≠ [] := by
  intro rem
  induction rem with
  | zero => intro a; cases h : op a <;> simp [retryFrom, h]
  | succ n ih => intro a; cases h : op a <;> simp [retryFrom, h]

/-- Each sleep recorded by the retry loop follows a failed non-final
attempt `n` and lasts `2 * (n + 1)` seconds. -/
theorem retryFrom_sleeps (op : Nat → Except String T) :
    ∀ (rem a : Nat),
      (retryFrom op a rem).sleeps =
        ((retryFrom op a rem).attemptsMade.dropLast).map (fun n => 2 * (n + 1)) := by
  intro rem
  induction rem with
  | zero => intro a; cases h : op a <;> simp [retryFrom, h]
  | succ n ih =>
    intro a
    cases h : op a with
    | ok r => simp [retryFrom, h]
    | error e =>
      simp only [retryFrom, h]
      rw [List.dropLast_cons_of_ne_nil (retryFrom_attemptsMade_ne_nil op n (a + 1))]
      simp [ih]

/-- Behaviour of the retry loop when the operation fails on the first `j`
attempts and succeeds on attempt `a + j` (within the bound): the success
record is returned, exactly the attempts `a, a+1, …, a+j` are made, and
the sleeps after the failed attempts are `2 * (n + 1)` for each failed
attempt `n`. -/
theorem retryFrom_firstSuccess (op : Nat → Except String T) :
    ∀ (j rem a : Nat) (v : T), j ≤ rem →
      (∀ i, i < j → ∃ e, op (a + i) = .error e) →
      op (a + j) = .ok v →
      retryFrom op a rem =
        ⟨⟨true, some v, none⟩, List.range' a (j + 1),
         (List.range' a j).map (fun n => 2 * (n + 1))⟩ := by
  intro j
  induction j with
  | zero =>
    intro rem a v _ _ hok
    rw [Nat.add_zero] at hok
    cases rem <;> simp [retryFrom, hok, List.range']
  | succ k ih =>
    intro rem a v hle hfail hok
    obtain ⟨e0, he0⟩ := hfail 0 (Nat.succ_pos k)
    rw [Nat.add_zero] at he0
    cases rem with
    | zero => omega
    | succ r =>
      simp only [retryFrom, he0]
      rw [ih r (a + 1) v (by omega)
            (fun i hi => by
              obtain ⟨e, he⟩ := hfail (i + 1) (by omega)
              exact ⟨e, by rwa [show a + (i + 1) = a + 1 + i by omega] at he⟩)
            (by rwa [show a + (k + 1) = a + 1 + k by omega] at hok)]
      rw [List.range'_succ a (k + 1) 1, List.range'_succ a k 1]
      simp

/-- Behaviour of the retry loop when the operation fails on every attempt
within the bound: the failure record carries the final attempt's error,
all attempts `a, …, a + rem` are made, and a sleep follows every attempt
but the last. -/
theorem retryFrom_allFail (op : Nat → Except String T) (e : Nat → String) :
    ∀ (rem a : Nat), (∀ i, i ≤ rem → op (a + i) = .error (e (a + i))) →
      retryFrom op a rem =
        ⟨⟨false, none, some (e (a + rem))⟩, List.range' a (rem + 1),
         (List.range' a rem).map (fun n => 2 * (n + 1))⟩ := by
  intro rem
  induction rem with
  | zero =>
    intro a h
    have h0 := h 0 (Nat.le_refl 0)
    rw [Nat.add_zero] at h0
    simp [retryFrom, h0, List.range']
  | succ n ih =>
    intro a h
    have h0 := h 0 (Nat.zero_le _)
    rw [Nat.add_zero] at h0
    simp only [retryFrom, h0]
    rw [ih (a + 1) (fun i hi => by
          have := h (i + 1) (by omega)
          rwa [show a + (i + 1) = a + 1 + i by omega] at this)]
    rw [List.range'_succ a (n + 1) 1, List.range'_succ a n 1]
    simp only []
    rw [show a + 1 + n = a + (n + 1) by omega]
    simp

/-- Every record produced by the retry loop is well-formed: a success
carries a result and no error, a failure carries an error and no result. -/
theorem retryFrom_wellFormed (op : Nat → Except String T) :
    ∀ (rem a : Nat),
      ((retryFrom op a rem).result.success = true →
        (retryFrom op a rem).result.error = none ∧
          ∃ v, (retryFrom op a rem).result.result = some v) ∧
      ((retryFrom op a rem).result.success = false →
        (retryFrom op a rem).result.result = none ∧
          ∃ e, (retryFrom op a rem).result.error = some e) := by
  intro rem
  induction rem with
  | zero => intro a; cases h : op a <;> simp [retryFrom, h]
  | succ n ih =>
    intro a
    cases h : op a with
    | ok r => simp [retryFrom, h]
    | error e => simp only [retryFrom, h]; exact ih (a + 1)

/-- C4 counterexample: with an operation failing every attempt and
`MaxRetries = 2`, the single sleep after failed attempt 1 lasts 4 time
units, not the `2 * 1 = 2` units the claim states. -/
theorem C4_counterexample :
    ((invokeExchangeOperation alwaysFailOp 2).map RetryTrace.sleeps) = some [4] ∧
      some [4] ≠ some [2 * 1] := by
  exact ⟨by rfl, by decide⟩

/-- C4 (amended): when attempt `n` fails and attempts remain, the executor
sleeps for `2 * (n + 1)` time units before issuing attempt `n + 1` (the
source increments `$attempt` before sleeping), giving the schedule
4, 6, 8, … after attempts 1, 2, 3, …. Formally: the sleep list is the
image of the non-final attempt numbers under `n ↦ 2 * (n + 1)`. -/
theorem C4_amended (op : Nat → Except String T) (M : Int) (t : RetryTrace T)
    (h : invokeExchangeOperation op M = some t) :
    t.sleeps = (t.attemptsMade.dropLast).map (fun n => 2 * (n + 1)) := by
  unfold invokeExchangeOperation at h
  split at h
  · exact absurd h (by simp)
  · rw [Option.some_inj] at h
    rw [← h]
    exact retryFrom_sleeps op (M.toNat - 1) 1

/-- Witness for C4 (amended) at a concrete always-failing operation with
`MaxRetries = 3`. -/
theorem C4_amended_witness :
    (retryFrom alwaysFailOp 1 2).sleeps =
      ((retryFrom alwaysFailOp 1 2).attemptsMade.dropLast).map (fun n => 2 * (n + 1)) :=
  C4_amended alwaysFailOp 3 (retryFrom alwaysFailOp 1 2) (by rfl)

/-- C6: if the operation fails on attempts `1..k-1` and succeeds on
attempt `k ≤ maxAttempts`, the executor returns the success immediately,
having invoked the operation exactly at attempts `1, …, k`; if the
operation fails on all `maxAttempts` attempts, the executor returns a
failure carrying the error of the final attempt. -/
theorem C6_retry_semantics (op : Nat → Except String T) (m k : Nat) (v : T)
    (e : Nat → String) :
    (1 ≤ k → k ≤ m →
      (∀ i, 1 ≤ i → i < k → ∃ err, op i = .error err) →
      op k = .ok v →
      invokeExchangeOperation op (m : Int) =
        some ⟨⟨true, some v, none⟩, List.range' 1 k,
              (List.range' 1 (k - 1)).map (fun n => 2 * (n + 1))⟩) ∧
    (1 ≤ m →
      (∀ i, 1 ≤ i → i ≤ m → op i = .error (e i)) →
      invokeExchangeOperation op (m : Int) =
        some ⟨⟨false, none, some (e m)⟩, List.range' 1 m,
              (List.range' 1 (m - 1)).map (fun n => 2 * (n + 1))⟩) := by
  constructor
  · intro hk hkm hfail hok
    unfold invokeExchangeOperation
    rw [if_neg (by omega : ¬(m : Int) ≤ 0), Int.toNat_natCast]
    have h := retryFrom_firstSuccess op (k - 1) (m - 1) 1 v (by omega)
      (fun i hi => by
        obtain ⟨err, he⟩ := hfail (1 + i) (by omega) (by omega)
        exact ⟨err, he⟩)
      (by rwa [show 1 + (k - 1) = k by omega])
    rw [show k - 1 + 1 = k by omega] at h
    rw [h]
  · intro hm hfail
    unfold invokeExchangeOperation
    rw [if_neg (by omega : ¬(m : Int) ≤ 0), Int.toNat_natCast]
    have h := retryFrom_allFail op e (m - 1) 1
      (fun i hi => hfail (1 + i) (by omega) (by omega))
    rw [show 1 + (m - 1) = m by omega] at h
    rw [show m - 1 + 1 = m by omega] at h
    rw [h]

/-- Witness for C6: a concrete operation failing on attempt 1 and
succeeding on attempt 2 with bound 3, and a concrete operation failing on
both attempts with bound 2 returning the final error. -/
theorem C6_retry_semantics_witness :
    invokeExchangeOperation flakyOp ((3 : Nat) : Int) =
      some ⟨⟨true, some (), none⟩, List.range' 1 2,
            (List.range' 1 1).map (fun n => 2 * (n + 1))⟩ ∧
    invokeExchangeOperation alwaysFailOp ((2 : Nat) : Int) =
      some ⟨⟨false, none, some "boom"⟩, List.range' 1 2,
            (List.range' 1 1).map (fun n => 2 * (n + 1))⟩ := by
  constructor
  · exact (C6_retry_semantics flakyOp 3 2 () (fun _ => "boom")).1
      (by decide) (by decide)
      (fun i h1 h2 => ⟨"transient", by
        have : i = 1 := by omega
        subst this
        rfl⟩)
      (by rfl)
  · exact (C6_retry_semantics alwaysFailOp 2 2 () (fun _ => "boom")).2
      (by decide)
      (fun i _ _ => rfl)

/-- C10: the executor returns a well-formed `{Success; Result; Error}`
record (success carrying a result, failure carrying an error) exactly
when `maxAttempts ≥ 1`; when `maxAttempts ≤ 0` the loop body never runs
and the function returns nothing at all. -/
theorem C10_result_shape (op : Nat → Except String T) (M : Int) :
    (M ≤ 0 → invokeExchangeOperation op M = none) ∧
    (1 ≤ M → ∃ t, invokeExchangeOperation op M = some t ∧
      (t.result.success = true →
        t.result.error = none ∧ ∃ v, t.result.result = some v) ∧
      (t.result.success = false →
        t.result.result = none ∧ ∃ e, t.result.error = some e)) := by
  constructor
  · intro h
    unfold invokeExchangeOperation
    rw [if_pos h]
  · intro h
    refine ⟨retryFrom op 1 (M.toNat - 1), ?_, retryFrom_wellFormed op (M.toNat - 1) 1⟩
    unfold invokeExchangeOperation
    rw [if_neg (by omega)]

/-- Witness for C10 at `maxAttempts = -1` (no record) and
`maxAttempts = 1` (well-formed record). -/
theorem C10_result_shape_witness :
    invokeExchangeOperation alwaysFailOp (-1) = none ∧
    ∃ t, invokeExchangeOperation alwaysFailOp 1 = some t ∧
      (t.result.success = true →
        t.result.error = none ∧ ∃ v, t.result.result = some v) ∧
      (t.result.success = false →
        t.result.result = none ∧ ∃ e, t.result.error = some e) :=
  ⟨(C10_result_shape alwaysFailOp (-1)).1 (by decide),
   (C10_result_shape alwaysFailOp 1).2 (by decide)⟩

/-- A string accepted by the format validator matches the anchored
department pattern. -/
theorem valid_implies_pattern (s : List Char)
    (h : (testDepartmentFormat s).isValid = true) :
    matchesDeptPattern s = true := by
  unfold testDepartmentFormat at h
  split at h
  · simp at h
  · split at h
    · simp at h
    · rename_i h2
      simpa using h2

/-- Inversion of the `[A-Z]{3}` matcher. -/
theorem matchUpper3_eq : ∀ (l : List Char), matchUpper3 l = true →
    ∃ a b c, l = [a, b, c] ∧
      upperChar a = true ∧ upperChar b = true ∧ upperChar c = true := by
  intro l h
  match l with
  | [a, b, c] =>
    simp only [matchUpper3, Bool.and_eq_true] at h
    obtain ⟨⟨ha, hb⟩, hc⟩ := h
    exact ⟨a, b, c, rfl, ha, hb, hc⟩
  | [] => simp [matchUpper3] at h
  | [a] => simp [matchUpper3] at h
  | [a, b] => simp [matchUpper3] at h
  | a :: b :: c :: d :: rest => simp [matchUpper3] at h

/-- A list ends in three uppercase letters. -/
def upperSuffix3 (l : List Char) : Prop :=
  ∃ p a b c, l = p ++ [a, b, c] ∧
    upperChar a = true ∧ upperChar b = true ∧ upperChar c = true

/-- Lists accepted by the `\s+[A-Z]{3}$` matcher end in three uppercase
letters. -/
theorem matchWsUpper3_suffix : ∀ (l : List Char), matchWsUpper3 l = true →
    upperSuffix3 l := by
  intro l
  induction l with
  | nil => intro h; simp [matchWsUpper3] at h
  | cons x rest ih =>
    intro h
    simp only [matchWsUpper3, Bool.and_eq_true, Bool.or_eq_true] at h
    rcases h.2 with h1 | h2
    · obtain ⟨a, b, c, hrest, ha, hb, hc⟩ := matchUpper3_eq rest h1
      exact ⟨[x], a, b, c, by simp [hrest], ha, hb, hc⟩
    · obtain ⟨p, a, b, c, hrest, ha, hb, hc⟩ := ih h2
      exact ⟨x :: p, a, b, c, by simp [hrest], ha, hb, hc⟩

/-- Lists accepted by the `-\s+[A-Z]{3}$` matcher end in three uppercase
letters. -/
theorem matchDashWsUpper3_suffix : ∀ (l : List Char),
    matchDashWsUpper3 l = true → upperSuffix3 l := by
  intro l h
  match l with
  | [] => simp [matchDashWsUpper3] at h
  | x :: rest =>
    simp only [matchDashWsUpper3, Bool.and_eq_true] at h
    obtain ⟨p, a, b, c, hrest, ha, hb, hc⟩ := matchWsUpper3_suffix rest h.2
    exact ⟨x :: p, a, b, c, by simp [hrest], ha, hb, hc⟩

/-- Lists accepted by the `\s+-\s+[A-Z]{3}$` matcher end in three
uppercase letters. -/
theorem matchWsDash_suffix : ∀ (l : List Char), matchWsDash l = true →
    upperSuffix3 l := by
  intro l
  induction l with
  | nil => intro h; simp [matchWsDash] at h
  | cons x rest ih =>
    intro h
    simp only [matchWsDash, Bool.and_eq_true, Bool.or_eq_true] at h
    rcases h.2 with h1 | h2
    · obtain ⟨p, a, b, c, hrest, ha, hb, hc⟩ := matchDashWsUpper3_suffix rest h1
      exact ⟨x :: p, a, b, c, by simp [hrest], ha, hb, hc⟩
    · obtain ⟨p, a, b, c, hrest, ha, hb, hc⟩ := ih h2
      exact ⟨x :: p, a, b, c, by simp [hrest], ha, hb, hc⟩

/-- Lists accepted by the `.+\s+-\s+[A-Z]{3}$` matcher end in three
uppercase letters. -/
theorem matchDotPlus_suffix : ∀ (l : List Char), matchDotPlus l = true →
    upperSuffix3 l := by
  intro l
  induction l with
  | nil => intro h; simp [matchDotPlus] at h
  | cons x rest ih =>
    intro h
    simp only [matchDotPlus, Bool.and_eq_true, Bool.or_eq_true] at h
    rcases h.2 with h1 | h2
    · obtain ⟨p, a, b, c, hrest, ha, hb, hc⟩ := matchWsDash_suffix rest h1
      exact ⟨x :: p, a, b, c, by simp [hrest], ha, hb, hc⟩
    · obtain ⟨p, a, b, c, hrest, ha, hb, hc⟩ := ih h2
      exact ⟨x :: p, a, b, c, by simp [hrest], ha, hb, hc⟩

/-- Lists accepted by the `\s+.+\s+-\s+[A-Z]{3}$` matcher end in three
uppercase letters. -/
theorem matchWsDotPlus_suffix : ∀ (l : List Char), matchWsDotPlus l = true →
    upperSuffix3 l := by
  intro l
  induction l with
  | nil => intro h; simp [matchWsDotPlus] at h
  | cons x rest ih =>
    intro h
    simp only [matchWsDotPlus, Bool.and_eq_true, Bool.or_eq_true] at h
    rcases h.2 with h1 | h2
    · obtain ⟨p, a, b, c, hrest, ha, hb, hc⟩ := matchDotPlus_suffix rest h1
      exact ⟨x :: p, a, b, c, by simp [hrest], ha, hb, hc⟩
    · obtain ⟨p, a, b, c, hrest, ha, hb, hc⟩ := ih h2
      exact ⟨x :: p, a, b, c, by simp [hrest], ha, hb, hc⟩

/-- Inversion of the full anchored department pattern: five leading
digits followed by a tail accepted by the `\s+.+\s+-\s+[A-Z]{3}$`
matcher. -/
theorem matchesDeptPattern_parts : ∀ (s : List Char),
    matchesDeptPattern s = true →
    ∃ d1 d2 d3 d4 d5 rest, s = d1 :: d2 :: d3 :: d4 :: d5 :: rest ∧
      digitChar d1 = true ∧ digitChar d2 = true ∧ digitChar d3 = true ∧
      digitChar d4 = true ∧ digitChar d5 = true ∧
      matchWsDotPlus rest = true := by
  intro s h
  match s with
  | d1 :: d2 :: d3 :: d4 :: d5 :: rest =>
    simp only [matchesDeptPattern, Bool.and_eq_true] at h
    obtain ⟨⟨⟨⟨⟨h1, h2⟩, h3⟩, h4⟩, h5⟩, hr⟩ := h
    exact ⟨d1, d2, d3, d4, d5, rest, rfl, h1, h2, h3, h4, h5, hr⟩
  | [] => simp [matchesDeptPattern] at h
  | [a] => simp [matchesDeptPattern] at h
  | [a, b] => simp [matchesDeptPattern] at h
  | [a, b, c] => simp [matchesDeptPattern] at h
  | [a, b, c, d] => simp [matchesDeptPattern] at h

/-- Evaluation of the parser on a string of exactly 13 characters whose
first five characters are digits and whose last three characters are
uppercase: the computed name length `(13 - 7) - 6 = 0` is rejected. -/
theorem parse_at_13 (s : List Char) (h13 : s.length = 13)
    (hd : matchDigits5 (s.take 5) = true)
    (hu : matchUpper3 ((s.drop 10).take 3) = true) :
    getDepartmentComponents s = .error "Empty department name detected" := by
  have hsub1 : substring s 0 5 = .ok (s.take 5) := by
    simp [substring, h13]
  have hsub2 : substring s ((s.length : Int) - 3) 3 = .ok ((s.drop 10).take 3) := by
    rw [h13]
    simp [substring, h13]
  unfold getDepartmentComponents
  rw [hsub1]
  simp only [hd, Bool.not_true, Bool.false_eq_true, if_false]
  rw [hsub2]
  simp only [hu, Bool.not_true, Bool.false_eq_true, if_false]
  rw [if_pos (by rw [h13]; decide)]

/-- C1 evidence: on the specification scenario input
`"10023 Accounts Payable - USA"` (which passes the format validator), the
parser as coded returns `Name = "Accounts Payabl"` — the name span
`(length - 7) - 6` excludes seven trailing characters although the
trailing separator-plus-code `" - USA"` has only six, contradicting the
in-source comments (`# Before " - USA"`, name is "everything between
number and country"). The derived display name is therefore
`"Accounts Payabl - USA"`, not the claimed `"Accounts Payable - USA"`;
the derived group name `"10023USA"` is unaffected. -/
theorem C1_code_eval :
    (testDepartmentFormat samplePayableInput).isValid = true ∧
    getDepartmentComponents samplePayableInput =
      .ok ⟨("10023").toList, ("Accounts Payabl").toList, ("USA").toList⟩ ∧
    groupNameOf ⟨("10023").toList, ("Accounts Payabl").toList, ("USA").toList⟩ =
      ("10023USA").toList ∧
    displayNameOf ⟨("10023").toList, ("Accounts Payabl").toList, ("USA").toList⟩ =
      ("Accounts Payabl - USA").toList ∧
    ("Accounts Payabl").toList ≠ ("Accounts Payable").toList :=
  ⟨by decide, by rfl, by rfl, by rfl, by decide⟩

/-- C9: every department string of exactly 13 characters that passes the
format validator is rejected by the parser with the empty-name error (the
computed name span has length `13 - 13 = 0`), and any string the parser
accepts has at least 14 characters. -/
theorem C9_min_length (s : List Char) :
    (s.length = 13 → (testDepartmentFormat s).isValid = true →
      getDepartmentComponents s = .error "Empty department name detected") ∧
    (∀ c, getDepartmentComponents s = .ok c → 14 ≤ s.length) := by
  constructor
  · intro h13 hv
    have hpat := valid_implies_pattern s hv
    obtain ⟨d1, d2, d3, d4, d5, rest, hs, h1, h2, h3, h4, h5, hrest⟩ :=
      matchesDeptPattern_parts s hpat
    obtain ⟨p, a, b, c, hr, ha, hb, hc⟩ := matchWsDotPlus_suffix rest hrest
    have hd : matchDigits5 (s.take 5) = true := by
      rw [hs]
      show matchDigits5 [d1, d2, d3, d4, d5] = true
      simp [matchDigits5, h1, h2, h3, h4, h5]
    have hs2 : s = (d1 :: d2 :: d3 :: d4 :: d5 :: p) ++ [a, b, c] := by
      rw [hs, hr]; simp
    have hpre : (d1 :: d2 :: d3 :: d4 :: d5 :: p).length = 10 := by
      have hl := h13
      rw [hs2] at hl
      simp at hl ⊢
      omega
    have hdrop : s.drop 10 = [a, b, c] := by
      rw [hs2, ← hpre, List.drop_left]
    have hu : matchUpper3 ((s.drop 10).take 3) = true := by
      rw [hdrop]
      show matchUpper3 [a, b, c] = true
      simp [matchUpper3, ha, hb, hc]
    exact parse_at_13 s h13 hd hu
  · intro c hp
    by_contra hlt
    push_neg at hlt
    unfold getDepartmentComponents at hp
    split at hp
    · simp at hp
    · split at hp
      · simp at hp
      · split at hp
        · simp at hp
        · split at hp
          · simp at hp
          · split at hp
            · simp at hp
            · rename_i hcond
              omega

/-- Witness for C9 at the concrete minimum-length valid string
`"12345 X - ABC"`. -/
theorem C9_min_length_witness :
    getDepartmentComponents sampleShortDept = .error "Empty department name detected" :=
  (C9_min_length sampleShortDept).1 (by rfl) (by rfl)

/-- When the existence lookup fails on both of its two attempts, the
engine reads `$existingRecipientResult.Result` as null. -/
theorem traceResult_lookupFail (op : Nat → Except String (Option RecipientInfo))
    (h : ∀ n, ∃ e, op n = .error e) :
    traceResult (invokeExchangeOperation op 2) = none := by
  obtain ⟨e1, he1⟩ := h 1
  obtain ⟨e2, he2⟩ := h 2
  simp [invokeExchangeOperation, traceResult, retryFrom, he1, he2]

/-- Sum of the five outcome buckets of the counter set. -/
def bucketSum (s : Stats) : Nat :=
  s.created + s.updated + s.skipped + s.validationErrors + s.processingErrors

/-- With dry-run off, each department increments `TotalProcessed` by one
and the outcome buckets by exactly one in total. -/
theorem processDepartment_buckets (M : Int) (env : DeptEnv) (d : List Char)
    (stats : Stats) :
    (processDepartment false M env d stats).1.totalProcessed = stats.totalProcessed + 1 ∧
    bucketSum (processDepartment false M env d stats).1 = bucketSum stats + 1 := by
  cases hv : (testDepartmentFormat d).isValid with
  | false => simp [processDepartment, bucketSum, hv]; omega
  | true =>
    cases hp : getDepartmentComponents d with
    | error e => simp [processDepartment, bucketSum, hv, hp]; omega
    | ok comps =>
      cases hlr : traceResult (invokeExchangeOperation env.lookupAnyOp 2) with
      | none =>
        cases hsucc : traceSuccess (invokeExchangeOperation env.createOp M) <;>
          simp [processDepartment, bucketSum, hv, hp, hlr, hsucc] <;> omega
      | some r =>
        cases hddg : traceResult (invokeExchangeOperation env.lookupDDGOp 2) with
        | none => simp [processDepartment, bucketSum, hv, hp, hlr, hddg]; omega
        | some g =>
          cases hsucc : traceSuccess (invokeExchangeOperation env.updateOp M) <;>
            simp [processDepartment, bucketSum, hv, hp, hlr, hddg, hsucc] <;> omega

/-- With dry-run off, the bucket-sum/`TotalProcessed` balance is
preserved by the whole sequential run. -/
theorem runEngine_invariant (M : Int) :
    ∀ (ds : List (DeptEnv × List Char)) (stats : Stats),
      bucketSum stats = stats.totalProcessed →
      bucketSum (runEngine false M ds stats) = (runEngine false M ds stats).totalProcessed := by
  intro ds
  induction ds with
  | nil => intro stats h; exact h
  | cons p rest ih =>
    intro stats h
    apply ih
    obtain ⟨h1, h2⟩ := processDepartment_buckets M p.1 p.2 stats
    rw [h2, h1, h]

/-- C2 counterexample: the 13-character department `"12345 X - ABC"`
passes the format validator, fails the parser, and the engine then
increments `ValidationErrors` (not `ProcessingErrors`), contradicting the
claim that a failed parse increments `ProcessingErrors`. -/
theorem C2_counterexample :
    (testDepartmentFormat sampleShortDept).isValid = true ∧
    getDepartmentComponents sampleShortDept = .error "Empty department name detected" ∧
    (processDepartment false 3 benignEnv sampleShortDept stats0).1.validationErrors = 1 ∧
    (processDepartment false 3 benignEnv sampleShortDept stats0).1.processingErrors = 0 :=
  ⟨by rfl, by rfl, by rfl, by rfl⟩

/-- C2 (amended): the report computes
`totalErrors = ValidationErrors + ProcessingErrors` and
`successCount = Created + Updated`, with both percentage rates rounded to
two decimal places and reported as 0 when `TotalProcessed = 0`; however a
department whose parse fails increments `ValidationErrors` (recorded as a
`ParsingError` entry), not `ProcessingErrors` — `ProcessingErrors` covers
only the remote create/update failures (and the unexpected-error
catch-all). -/
theorem C2_amended :
    (∀ stats : Stats,
      (summaryReport stats).totalErrors = stats.validationErrors + stats.processingErrors ∧
      (summaryReport stats).successCount = stats.created + stats.updated ∧
      (stats.totalProcessed = 0 →
        (summaryReport stats).successRate = 0 ∧ (summaryReport stats).errorRate = 0) ∧
      (0 < stats.totalProcessed →
        (summaryReport stats).successRate =
          mathRound2 ((((stats.created + stats.updated : Nat)) : ℚ) /
            ((stats.totalProcessed : Nat) : ℚ) * 100) ∧
        (summaryReport stats).errorRate =
          mathRound2 ((((stats.validationErrors + stats.processingErrors : Nat)) : ℚ) /
            ((stats.totalProcessed : Nat) : ℚ) * 100))) ∧
    (∀ (M : Int) (env : DeptEnv) (d : List Char) (stats : Stats),
      (testDepartmentFormat d).isValid = true →
      (∃ e, getDepartmentComponents d = .error e) →
      (processDepartment false M env d stats).1.validationErrors =
        stats.validationErrors + 1 ∧
      (processDepartment false M env d stats).1.processingErrors =
        stats.processingErrors) := by
  constructor
  · intro stats
    refine ⟨rfl, rfl, fun h0 => ?_, fun hpos => ?_⟩
    · simp [summaryReport, h0]
    · simp [summaryReport, hpos]
  · intro M env d stats hv he
    obtain ⟨e, he⟩ := he
    constructor <;> simp [processDepartment, hv, he]

/-- Witness for C2 (amended) at the concrete parse-failing department
`"12345 X - ABC"`. -/
theorem C2_amended_witness :
    (processDepartment false 3 benignEnv sampleShortDept stats0).1.validationErrors =
      stats0.validationErrors + 1 ∧
    (processDepartment false 3 benignEnv sampleShortDept stats0).1.processingErrors =
      stats0.processingErrors :=
  C2_amended.2 3 benignEnv sampleShortDept stats0 (by rfl)
    ⟨"Empty department name detected", by rfl⟩

/-- C3 counterexample: with an existence lookup that fails remotely on
every attempt (`lookupFailEnv`), department `"12345 Finance - USA"` is
not skipped with a lookup-error outcome: the engine records `Created` and
issues the create call. -/
theorem C3_counterexample :
    (processDepartment false 3 lookupFailEnv sampleFinanceDept stats0).2.1 =
      some { department := sampleFinanceDept, status := .created,
             groupName := some (("12345USA").toList),
             displayName := some (("Financ - USA").toList) } ∧
    RemoteCall.createDDG ∈ (processDepartment false 3 lookupFailEnv sampleFinanceDept stats0).2.2 ∧
    (processDepartment false 3 lookupFailEnv sampleFinanceDept stats0).1.skipped = 0 :=
  ⟨by rfl, by decide, by rfl⟩

/-- C3 (amended): when the existence lookup fails on every retry attempt,
the engine does not record any lookup-error outcome and does not skip the
department — it reads the failed lookup result as "no existing recipient"
and proceeds to the create branch, issuing the create call and recording
`Created` or `CreateError` (no lookup-error outcome exists in the code). -/
theorem C3_amended (M : Int) (env : DeptEnv) (d : List Char) (stats : Stats)
    (hv : (testDepartmentFormat d).isValid = true)
    (comps : DeptComponents) (hp : getDepartmentComponents d = .ok comps)
    (hfail : ∀ n, ∃ e, env.lookupAnyOp n = .error e) :
    (processDepartment false M env d stats).2.2 =
      [RemoteCall.checkExistingRecipient, RemoteCall.createDDG] ∧
    ∃ pe, (processDepartment false M env d stats).2.1 = some pe ∧
      (pe.status = .created ∨ pe.status = .createError) := by
  have hnone := traceResult_lookupFail env.lookupAnyOp hfail
  cases hsucc : traceSuccess (invokeExchangeOperation env.createOp M) <;>
    simp [processDepartment, hv, hp, hnone, hsucc]

/-- Witness for C3 (amended) at `lookupFailEnv` and
`"12345 Finance - USA"`. -/
theorem C3_amended_witness :
    (processDepartment false 3 lookupFailEnv sampleFinanceDept stats0).2.2 =
      [RemoteCall.checkExistingRecipient, RemoteCall.createDDG] ∧
    ∃ pe, (processDepartment false 3 lookupFailEnv sampleFinanceDept stats0).2.1 = some pe ∧
      (pe.status = .created ∨ pe.status = .createError) :=
  C3_amended 3 lookupFailEnv sampleFinanceDept stats0 (by rfl)
    ⟨("12345").toList, ("Financ").toList, ("USA").toList⟩ (by rfl)
    (fun _ => ⟨"timeout", rfl⟩)

/-- C5: when the existence lookup returns an object but the typed DDG
lookup returns none, the engine records `Skipped` with the occupying
recipient type in the reason, issues exactly the two lookups — no create
and no update (and the call vocabulary contains no delete or overwrite
operation at all) — and increments only the `Skipped` bucket. -/
theorem C5_skip_no_mutation (M : Int) (env : DeptEnv) (d : List Char) (stats : Stats)
    (r : RecipientInfo)
    (hv : (testDepartmentFormat d).isValid = true)
    (comps : DeptComponents) (hp : getDepartmentComponents d = .ok comps)
    (hany : traceResult (invokeExchangeOperation env.lookupAnyOp 2) = some r)
    (hddg : traceResult (invokeExchangeOperation env.lookupDDGOp 2) = none) :
    (processDepartment false M env d stats).2.1 =
      some { department := d, status := .skipped,
             reason := some (("Exists as ").toList ++ r.recipientTypeDetails) } ∧
    (processDepartment false M env d stats).2.2 =
      [RemoteCall.checkExistingRecipient, RemoteCall.checkExistingDDG] ∧
    RemoteCall.createDDG ∉ (processDepartment false M env d stats).2.2 ∧
    RemoteCall.updateDDG ∉ (processDepartment false M env d stats).2.2 ∧
    (processDepartment false M env d stats).1.skipped = stats.skipped + 1 := by
  simp [processDepartment, hv, hp, hany, hddg]

/-- Witness for C5: `"12345 Finance - USA"` against a directory in which
`"12345USA"` is occupied by a shared mailbox. -/
theorem C5_skip_no_mutation_witness :
    (processDepartment false 3 occupiedEnv sampleFinanceDept stats0).2.1 =
      some { department := sampleFinanceDept, status := .skipped,
             reason := some (("Exists as ").toList ++
               (RecipientInfo.mk (("SharedMailbox").toList)).recipientTypeDetails) } ∧
    (processDepartment false 3 occupiedEnv sampleFinanceDept stats0).2.2 =
      [RemoteCall.checkExistingRecipient, RemoteCall.checkExistingDDG] ∧
    RemoteCall.createDDG ∉ (processDepartment false 3 occupiedEnv sampleFinanceDept stats0).2.2 ∧
    RemoteCall.updateDDG ∉ (processDepartment false 3 occupiedEnv sampleFinanceDept stats0).2.2 ∧
    (processDepartment false 3 occupiedEnv sampleFinanceDept stats0).1.skipped =
      stats0.skipped + 1 :=
  C5_skip_no_mutation 3 occupiedEnv sampleFinanceDept stats0
    ⟨("SharedMailbox").toList⟩ (by rfl)
    ⟨("12345").toList, ("Financ").toList, ("USA").toList⟩ (by rfl)
    (by rfl) (by rfl)

/-- C7 counterexample: in dry-run mode, for the valid department
`"12345 Finance - USA"` the engine records no outcome at all — the entry
appended to the processed list is `none` (the source executes `continue`
after the WhatIf announcement), contradicting the claim that a no-op
outcome is recorded for the department. -/
theorem C7_counterexample :
    (testDepartmentFormat sampleFinanceDept).isValid = true ∧
    getDepartmentComponents sampleFinanceDept =
      .ok ⟨("12345").toList, ("Financ").toList, ("USA").toList⟩ ∧
    (processDepartment true 3 benignEnv sampleFinanceDept stats0).2.1 = none ∧
    (processDepartment true 3 benignEnv sampleFinanceDept stats0).2.2 = [] :=
  ⟨by rfl, by rfl, by rfl, by rfl⟩

/-- C7 (amended): in dry-run mode, after validation and parsing succeed
the engine performs zero remote calls and records no outcome for the
department — the only state change is the `TotalProcessed` increment. -/
theorem C7_amended (M : Int) (env : DeptEnv) (d : List Char) (stats : Stats)
    (hv : (testDepartmentFormat d).isValid = true)
    (comps : DeptComponents) (hp : getDepartmentComponents d = .ok comps) :
    processDepartment true M env d stats =
      ({ stats with totalProcessed := stats.totalProcessed + 1 }, none, []) := by
  simp [processDepartment, hv, hp]

/-- Witness for C7 (amended) at `"12345 Finance - USA"`. -/
theorem C7_amended_witness :
    processDepartment true 3 benignEnv sampleFinanceDept stats0 =
      ({ stats0 with totalProcessed := stats0.totalProcessed + 1 }, none, []) :=
  C7_amended 3 benignEnv sampleFinanceDept stats0 (by rfl)
    ⟨("12345").toList, ("Financ").toList, ("USA").toList⟩ (by rfl)

/-- C8 counterexample: in dry-run mode the valid department
`"12345 Finance - USA"` increments `TotalProcessed` without incrementing
any outcome bucket, so the claimed balance
`Created + Updated + Skipped + ValidationErrors + ProcessingErrors =
TotalProcessed` fails after it completes. -/
theorem C8_counterexample :
    (processDepartment true 3 benignEnv sampleFinanceDept stats0).1.totalProcessed = 1 ∧
    bucketSum (processDepartment true 3 benignEnv sampleFinanceDept stats0).1 = 0 :=
  ⟨by rfl, by rfl⟩

/-- C8 (amended): with dry-run off, every department increments
`TotalProcessed` by exactly one and the outcome buckets by exactly one in
total, so the balance `bucketSum = TotalProcessed` holds after every
department of a sequential run started from fresh counters; in dry-run
mode, departments that pass validation and parsing increment only
`TotalProcessed`, breaking the balance. -/
theorem C8_amended (M : Int) (env : DeptEnv) (d : List Char) (stats : Stats) :
    ((processDepartment false M env d stats).1.totalProcessed = stats.totalProcessed + 1 ∧
      bucketSum (processDepartment false M env d stats).1 = bucketSum stats + 1) ∧
    (∀ (ds : List (DeptEnv × List Char)),
      bucketSum (runEngine false M ds stats0) = (runEngine false M ds stats0).totalProcessed) :=
  ⟨processDepartment_buckets M env d stats,
   fun ds => runEngine_invariant M ds stats0 rfl⟩

end DDG
